import Mathlib

/-!
Shallow embedding of the `await_state` crate: a keyed map of change-tracking
cells (`WatchDiff`) with predicate-based waiting (`AwaitStateMap`).

Source files embedded: `src/watch_diff.rs`, `src/await_state.rs`, `src/error.rs`.
Async suspension is modelled by explicit traces: `WatchDiff.changed` consumes the
list of cell snapshots observed at successive notifications, and
`AwaitStateMap.wait_until` consumes one `WaitIteration` (map view at lookup plus
notification snapshots) per pass of its retry loop.
-/

deriving instance DecidableEq for Except

namespace AwaitState

/-- Embeds `AwaitStateError` from `src/error.rs`: the two result classifications. -/
inductive AwaitStateError where
  | KeyNotFound
  | TimeoutExpired
deriving DecidableEq

/-- Embeds `Inner<T>` from `src/watch_diff.rs` (the lock-guarded data of a
`WatchDiff`): an optional previous value and a required current value.
The `RwLock`/`Notify` wrappers carry no data and are modelled by the traces
fed to `changed` and by the event list `setEvents`. -/
structure WatchDiff (T : Type) where
  prev : Option T
  current : T
deriving DecidableEq

namespace WatchDiff

variable {T : Type}

/-- Embeds `WatchDiff::new` (`src/watch_diff.rs:17-27`): previous absent,
current set to the initial value. -/
def new (initial : T) : WatchDiff T :=
  { prev := none, current := initial }

/-- Embeds `WatchDiff::set` (`src/watch_diff.rs:30-36`): the old current value
moves into `prev`, the new value becomes `current`. -/
def set (c : WatchDiff T) (newVal : T) : WatchDiff T :=
  { prev := some c.current, current := newVal }

/-- Embeds `WatchDiff::get_diff_cloned` (`src/watch_diff.rs:39-42`): clone of
the `(prev, current)` pair. -/
def get_diff_cloned (c : WatchDiff T) : Option T × T :=
  (c.prev, c.current)

/-- Embeds `WatchDiff::changed` (`src/watch_diff.rs:45-55`) over the list of
cell snapshots the task reads after successive notifications: each loop pass
awaits one notification, re-reads the snapshot, returns `(prev, curr)` when
`prev` is present and `curr != prev`, and otherwise loops. `none` means the
trace ended with the task still suspended. -/
def changed [DecidableEq T] : List (WatchDiff T) → Option (T × T)
  | [] => none
  | c :: rest =>
    match c.get_diff_cloned with
    | (some prev, curr) => if curr ≠ prev then some (prev, curr) else changed rest
    | (none, _) => changed rest

/-- Events performed by `WatchDiff::set` (`src/watch_diff.rs:30-36`), in source
order: the write guard is acquired, `prev` and `current` are written,
`notify_waiters` is called, and the guard is dropped at the end of the scope —
after the notify call. -/
inductive SetEvent (T : Type) where
  | acquireWrite
  | writePrev (v : Option T)
  | writeCurrent (v : T)
  | notifyWaiters
  | releaseWrite
deriving DecidableEq

/-- The event trace of one `WatchDiff::set` call (`src/watch_diff.rs:30-36`):
`let mut write = self.inner.write().await` acquires; `write.prev = Some(current)`
and `write.current = new` mutate; `self.notify.notify_waiters()` notifies; the
guard `write` is dropped when the function scope ends, after the notify. -/
def setEvents (c : WatchDiff T) (newVal : T) : List (SetEvent T) :=
  [SetEvent.acquireWrite, SetEvent.writePrev (some c.current),
   SetEvent.writeCurrent newVal, SetEvent.notifyWaiters, SetEvent.releaseWrite]

/-- Recognizes the guard-acquisition event. -/
def isAcquireEvent : SetEvent T → Bool
  | SetEvent.acquireWrite => true
  | _ => false

/-- Recognizes the `write.current = new` event. -/
def isWriteCurrentEvent : SetEvent T → Bool
  | SetEvent.writeCurrent _ => true
  | _ => false

/-- Recognizes the `notify_waiters` event. -/
def isNotifyEvent : SetEvent T → Bool
  | SetEvent.notifyWaiters => true
  | _ => false

/-- Recognizes the guard-release event. -/
def isReleaseEvent : SetEvent T → Bool
  | SetEvent.releaseWrite => true
  | _ => false

/-- The property claimed of `set`: the write guard is released strictly before
the waiters are notified. -/
def lockReleasedBeforeNotify (evs : List (SetEvent T)) : Prop :=
  evs.findIdx isReleaseEvent < evs.findIdx isNotifyEvent

instance (evs : List (SetEvent T)) : Decidable (lockReleasedBeforeNotify evs) :=
  inferInstanceAs (Decidable (_ < _))

end WatchDiff

/-- Embeds `AwaitStateMap<T>` (`src/await_state.rs`): the `DashMap` from string
keys to cells, modelled as an association list with unique effective keys
(lookup finds the first match; insertion replaces in place). -/
def AwaitStateMap (T : Type) : Type :=
  List (String × WatchDiff T)

namespace AwaitStateMap

variable {T : Type}

/-- Embeds `AwaitStateMap::new` (`src/await_state.rs`): the empty map. -/
def new : AwaitStateMap T := []

/-- `DashMap::get`: first cell stored under the key, if any. -/
def get (m : AwaitStateMap T) (key : String) : Option (WatchDiff T) :=
  match m with
  | [] => none
  | e :: rest => if e.1 = key then some e.2 else get rest key

/-- `DashMap::insert`: replaces the entry for the key in place, or appends a
new entry when the key is absent. -/
def insert (m : AwaitStateMap T) (key : String) (cell : WatchDiff T) :
    AwaitStateMap T :=
  match m with
  | [] => [(key, cell)]
  | e :: rest => if e.1 = key then (key, cell) :: rest else e :: insert rest key cell

/-- Embeds `AwaitStateMap::put` (`src/await_state.rs:29-32`): unconditionally
inserts a fresh cell built by `WatchDiff::new`. -/
def put (m : AwaitStateMap T) (key : String) (value : T) : AwaitStateMap T :=
  m.insert key (WatchDiff.new value)

/-- Embeds `AwaitStateMap::remove` (`src/await_state.rs:35-37`):
`DashMap::remove` deletes the entry for the key. -/
def remove (m : AwaitStateMap T) (key : String) : AwaitStateMap T :=
  m.filter (fun e => e.1 ≠ key)

/-- Embeds `AwaitStateMap::set_state` (`src/await_state.rs:39-47`): looks the
cell up; if present applies `WatchDiff::set` to it and returns `Ok(())`,
otherwise leaves the map alone and returns `Err(KeyNotFound)`. -/
def set_state (m : AwaitStateMap T) (key : String) (state : T) :
    AwaitStateMap T × Except AwaitStateError Unit :=
  match m.get key with
  | some cell => (m.insert key (cell.set state), Except.ok ())
  | none => (m, Except.error AwaitStateError.KeyNotFound)

/-- Embeds `AwaitStateMap::get_state` (`src/await_state.rs:50-56`): the second
component of the cell's `get_diff_cloned` snapshot, or `Err(KeyNotFound)`. -/
def get_state (m : AwaitStateMap T) (key : String) : Except AwaitStateError T :=
  match m.get key with
  | some cell => Except.ok cell.get_diff_cloned.2
  | none => Except.error AwaitStateError.KeyNotFound

/-- `get_state` as a state transformer: the method takes `&self` and only
acquires the cell's read lock to clone, so the map component is returned
untouched (`src/await_state.rs:50-56`, `src/watch_diff.rs:39-42`). -/
def get_stateS (m : AwaitStateMap T) (key : String) :
    AwaitStateMap T × Except AwaitStateError T :=
  (m, m.get_state key)

/-- One pass of the `wait_until` retry loop, as the environment presents it:
the map contents observed at the `self.map.get(key)` lookup, and the cell
snapshots observed inside `entry.changed()` at successive notifications. -/
structure WaitIteration (T : Type) where
  map : AwaitStateMap T
  notifs : List (WatchDiff T)

/-- Embeds `AwaitStateMap::wait_until` (`src/await_state.rs:59-85`) over a
trace of loop iterations. Each pass: look the key up, failing with
`KeyNotFound` when absent; snapshot `(prev, curr)`; evaluate
`predicate(prev, curr)` when `prev` is present and `predicate(curr, curr)`
otherwise, returning `Ok(curr)` on success; else await `changed()` and return
`Ok(curr)` if the returned pair satisfies the predicate; else loop. `none`
means the trace ended with the task still suspended. -/
def wait_until [DecidableEq T] (trace : List (WaitIteration T)) (key : String)
    (predicate : T → T → Bool) : Option (Except AwaitStateError T) :=
  match trace with
  | [] => none
  | it :: rest =>
    match it.map.get key with
    | some entry =>
      match entry.get_diff_cloned with
      | (prev, curr) =>
        let firstHit : Bool :=
          match prev with
          | some p => predicate p curr
          | none => predicate curr curr
        if firstHit then some (Except.ok curr)
        else
          match WatchDiff.changed it.notifs with
          | none => none
          | some (p, c) =>
            if predicate p c then some (Except.ok c)
            else wait_until rest key predicate
    | none => some (Except.error AwaitStateError.KeyNotFound)

/-- Outcome of racing a future against a timer, as `tokio::time::timeout`
resolves it: either the timer elapsed first or the future completed with a
result. -/
inductive TimeoutOutcome (α : Type) where
  | elapsed
  | completed (result : α)

/-- Models `tokio::time::timeout`: `Err(Elapsed)` (here `none`) when the timer
fires first, `Ok(result)` when the wrapped future completes first. -/
def tokioTimeout {α : Type} (o : TimeoutOutcome α) : Option α :=
  match o with
  | TimeoutOutcome.elapsed => none
  | TimeoutOutcome.completed r => some r

/-- Embeds `AwaitStateMap::wait_until_timeout` (`src/await_state.rs:88-101`):
`timeout(duration, self.wait_until(..)).await.map_err(|_| TimeoutExpired)?` —
the elapsed case becomes `Err(TimeoutExpired)`, and a completed inner
`wait_until` result is propagated unchanged. -/
def wait_until_timeout (o : TimeoutOutcome (Except AwaitStateError T)) :
    Except AwaitStateError T :=
  match tokioTimeout o with
  | none => Except.error AwaitStateError.TimeoutExpired
  | some r => r

/-- The cell obtained from `WatchDiff::new(init)` followed by the given
sequence of `WatchDiff::set` calls, in order. -/
def cellAfter (init : T) (sets : List T) : WatchDiff T :=
  sets.foldl WatchDiff.set (WatchDiff.new init)

/-- The map-mutating surface of `AwaitStateMap`, for stating invariants over
operation histories. `get_state` is listed with the mutators to record that it
leaves the map untouched. -/
inductive MapOp (T : Type) where
  | put (key : String) (value : T)
  | remove (key : String)
  | set_state (key : String) (value : T)
  | get_state (key : String)

/-- Effect of one operation on the map. `get_state` takes `&self` and performs
no write (`src/await_state.rs:50-56`), so its effect is the identity. -/
def applyOp (m : AwaitStateMap T) : MapOp T → AwaitStateMap T
  | MapOp.put k v => m.put k v
  | MapOp.remove k => m.remove k
  | MapOp.set_state k v => (m.set_state k v).1
  | MapOp.get_state _ => m

/-- The map reached from `AwaitStateMap::new` by a sequence of operations. -/
def runOps (ops : List (MapOp T)) : AwaitStateMap T :=
  ops.foldl applyOp AwaitStateMap.new

/-- History of one key along an operation sequence: `none` while the key is
absent, `some (init, sets)` when the key's live cell was created by a `put`
with value `init` and has since received exactly the `WatchDiff::set` calls
`sets` (successful `set_state`s), in order. -/
def keyHistoryStep (key : String) (h : Option (T × List T)) :
    MapOp T → Option (T × List T)
  | MapOp.put k v => if k = key then some (v, []) else h
  | MapOp.remove k => if k = key then none else h
  | MapOp.set_state k v =>
    match h with
    | some (init, sets) => if k = key then some (init, sets ++ [v]) else h
    | none => h
  | MapOp.get_state _ => h

/-- The key history accumulated over a whole operation sequence, starting from
the empty map. -/
def keyHistory (key : String) (ops : List (MapOp T)) : Option (T × List T) :=
  ops.foldl (keyHistoryStep key) none

end AwaitStateMap

/-- Concrete one-entry map used by witnesses: key `"k"` holds a fresh cell
for `0`. -/
def sampleMapK : AwaitStateMap Nat :=
  [("k", WatchDiff.new 0)]

/-- Concrete one-entry map used by witnesses: key `"a"` holds a fresh cell
for `7`. -/
def sampleMapA : AwaitStateMap Nat :=
  [("a", WatchDiff.new 7)]

open AwaitStateMap

section MapLemmas

variable {T : Type}

theorem get_insert_self (m : AwaitStateMap T) (key : String) (c : WatchDiff T) :
    (m.insert key c).get key = some c := by
  induction m with
  | nil => simp [AwaitStateMap.insert, AwaitStateMap.get]
  | cons e rest ih =>
    by_cases h : e.1 = key
    · simp [AwaitStateMap.insert, AwaitStateMap.get, h]
    · simp [AwaitStateMap.insert, AwaitStateMap.get, h, ih]

theorem get_insert_ne (m : AwaitStateMap T) (key k : String) (c : WatchDiff T)
    (hne : k ≠ key) : (m.insert key c).get k = m.get k := by
  have hkey : ¬ key = k := fun h => hne h.symm
  induction m with
  | nil => simp [AwaitStateMap.insert, AwaitStateMap.get, hkey]
  | cons e rest ih =>
    by_cases h : e.1 = key
    · have h2 : ¬ e.1 = k := by rw [h]; exact hkey
      simp [AwaitStateMap.insert, AwaitStateMap.get, h, h2, hkey]
    · by_cases h2 : e.1 = k
      · simp [AwaitStateMap.insert, AwaitStateMap.get, h, h2, hne, hkey]
      · simp [AwaitStateMap.insert, AwaitStateMap.get, h, h2, ih]

theorem get_remove_self (m : AwaitStateMap T) (key : String) :
    (m.remove key).get key = none := by
  induction m with
  | nil => simp [AwaitStateMap.remove, AwaitStateMap.get]
  | cons e rest ih =>
    by_cases h : e.1 = key
    · simpa [AwaitStateMap.remove, List.filter, h] using ih
    · simpa [AwaitStateMap.remove, List.filter, h, AwaitStateMap.get] using ih

theorem get_remove_ne (m : AwaitStateMap T) (key k : String) (hne : k ≠ key) :
    (m.remove key).get k = m.get k := by
  have hkey : ¬ key = k := fun h => hne h.symm
  induction m with
  | nil => simp [AwaitStateMap.remove, AwaitStateMap.get]
  | cons e rest ih =>
    by_cases h : e.1 = key
    · have h2 : ¬ e.1 = k := by rw [h]; exact hkey
      simpa [AwaitStateMap.remove, List.filter, AwaitStateMap.get, h, h2, hkey,
        hne] using ih
    · by_cases h2 : e.1 = k
      · simp [AwaitStateMap.remove, List.filter, h, AwaitStateMap.get, h2, hne,
          hkey]
      · simpa [AwaitStateMap.remove, List.filter, h, AwaitStateMap.get, h2] using ih

theorem cellAfter_prev_none (init : T) (sets : List T) :
    (cellAfter init sets).prev = none ↔ sets = [] := by
  have aux : ∀ (l : List T) (c : WatchDiff T),
      (l.foldl WatchDiff.set c).prev = none ↔ c.prev = none ∧ l = [] := by
    intro l
    induction l with
    | nil => intro c; simp
    | cons v rest ih =>
      intro c
      rw [List.foldl_cons]
      rw [ih (c.set v)]
      simp [WatchDiff.set]
  rw [cellAfter, aux]
  simp [WatchDiff.new]

end MapLemmas

/-- C1: for a map holding key `k`, `set_state k v1` followed by `set_state k v2`
leaves `get_state k = Ok v2` and the cell's snapshot equal to
`(Some v1, v2)`; in general every `WatchDiff.set` moves the old current value
into `prev` before installing the new value. -/
theorem set_state_shifts_history {T : Type} (m : AwaitStateMap T) (k : String)
    (cell : WatchDiff T) (v1 v2 : T) (h : m.get k = some cell) :
    (((m.set_state k v1).1.set_state k v2).1.get_state k = Except.ok v2) ∧
    (((m.set_state k v1).1.set_state k v2).1.get k
      = some { prev := some v1, current := v2 }) ∧
    (∀ (c : WatchDiff T) (v : T), (c.set v).prev = some c.current) := by
  have h1 : (m.set_state k v1).1 = m.insert k (cell.set v1) := by
    simp [AwaitStateMap.set_state, h]
  have h2 : (m.insert k (cell.set v1)).get k = some (cell.set v1) :=
    get_insert_self m k (cell.set v1)
  have h3 : ((m.set_state k v1).1.set_state k v2).1
      = (m.insert k (cell.set v1)).insert k ((cell.set v1).set v2) := by
    rw [h1]
    simp [AwaitStateMap.set_state, h2]
  have h4 : ((m.set_state k v1).1.set_state k v2).1.get k
      = some ((cell.set v1).set v2) := by
    rw [h3]
    exact get_insert_self _ k _
  refine ⟨?_, ?_, fun c v => rfl⟩
  · simp [AwaitStateMap.get_state, h4, WatchDiff.get_diff_cloned, WatchDiff.set]
  · simpa [WatchDiff.set] using h4

/-- Witness for C1 at a concrete map: key `"k"` holds a fresh cell for `0`,
then `set_state "k" 1` and `set_state "k" 2` are applied. -/
theorem set_state_shifts_history_witness :
    (sampleMapK.get "k" = some (WatchDiff.new 0)) ∧
    ((((sampleMapK.set_state "k" 1).1.set_state "k" 2).1.get_state "k"
        = Except.ok 2) ∧
      (((sampleMapK.set_state "k" 1).1.set_state "k" 2).1.get "k"
        = some { prev := some 1, current := 2 }) ∧
      (∀ (c : WatchDiff Nat) (v : Nat), (c.set v).prev = some c.current)) :=
  ⟨by decide, set_state_shifts_history sampleMapK "k" (WatchDiff.new 0) 1 2
    (by decide)⟩

/-- C3: `put k v` unconditionally installs a fresh cell: afterwards `get k`
finds a cell with `prev = none` and `current = v` (even when `k` already
existed with history), `get_state k` returns `Ok v`, and `prev` first becomes
`Some` at the next `set_state` on `k`. -/
theorem put_installs_fresh_cell {T : Type} (m : AwaitStateMap T) (k : String)
    (v : T) :
    ((m.put k v).get k = some { prev := none, current := v }) ∧
    ((m.put k v).get_state k = Except.ok v) ∧
    (∀ w, ((m.put k v).set_state k w).1.get k
      = some { prev := some v, current := w }) := by
  have h1 : (m.put k v).get k = some (WatchDiff.new v) :=
    get_insert_self m k (WatchDiff.new v)
  refine ⟨by simpa [WatchDiff.new] using h1, ?_, ?_⟩
  · simp [AwaitStateMap.get_state, h1, WatchDiff.get_diff_cloned, WatchDiff.new]
  · intro w
    have h2 : ((m.put k v).set_state k w).1
        = (m.put k v).insert k ((WatchDiff.new v).set w) := by
      simp [AwaitStateMap.set_state, h1]
    rw [h2]
    simpa [WatchDiff.new, WatchDiff.set] using
      get_insert_self (m.put k v) k ((WatchDiff.new v).set w)

/-- C9: whenever `set_state k v` returns `Err(KeyNotFound)`, the map is
completely unchanged: same value for every key, no entry created for `k`. -/
theorem set_state_err_is_atomic {T : Type} (m : AwaitStateMap T) (k : String)
    (v : T)
    (h : (m.set_state k v).2 = Except.error AwaitStateError.KeyNotFound) :
    ((m.set_state k v).1 = m) ∧ ((m.set_state k v).1.get k = none) ∧
    (∀ k', (m.set_state k v).1.get k' = m.get k') := by
  cases hm : m.get k with
  | some cell => simp [AwaitStateMap.set_state, hm] at h
  | none =>
    refine ⟨?_, ?_, ?_⟩ <;> simp [AwaitStateMap.set_state, hm]

/-- Witness for C9: `set_state` on the absent key `"b"` of a one-entry map. -/
theorem set_state_err_is_atomic_witness :
    ((sampleMapA.set_state "b" 1).2
      = Except.error AwaitStateError.KeyNotFound) ∧
    (((sampleMapA.set_state "b" 1).1 = sampleMapA) ∧
      ((sampleMapA.set_state "b" 1).1.get "b" = none) ∧
      (∀ k', (sampleMapA.set_state "b" 1).1.get k' = sampleMapA.get k')) :=
  ⟨by decide, set_state_err_is_atomic sampleMapA "b" 1 (by decide)⟩

/-- C10: `get_state` is read-only and deterministic: the map component of the
state transformer is returned unchanged (same entries under every key), and
two consecutive calls with no intervening mutation return equal results. -/
theorem get_state_read_only {T : Type} (m : AwaitStateMap T) (k : String) :
    ((m.get_stateS k).1 = m) ∧
    (∀ k', (m.get_stateS k).1.get k' = m.get k') ∧
    (((m.get_stateS k).1.get_stateS k).2 = (m.get_stateS k).2) :=
  ⟨rfl, fun _ => rfl, rfl⟩

theorem cellAfter_append {T : Type} (init : T) (sets : List T) (v : T) :
    cellAfter init (sets ++ [v]) = (cellAfter init sets).set v := by
  simp [cellAfter, List.foldl_append]

theorem get_foldl_applyOp {T : Type} (key : String) (ops : List (MapOp T)) :
    ∀ (m : AwaitStateMap T) (h : Option (T × List T)),
      m.get key = h.map (fun x => cellAfter x.1 x.2) →
      (ops.foldl applyOp m).get key
        = (ops.foldl (keyHistoryStep key) h).map (fun x => cellAfter x.1 x.2) := by
  induction ops with
  | nil => intro m h hm; simpa using hm
  | cons op rest ih =>
    intro m h hm
    rw [List.foldl_cons, List.foldl_cons]
    apply ih
    cases op with
    | put k v =>
      by_cases hk : k = key
      · subst hk
        simp [applyOp, keyHistoryStep, AwaitStateMap.put, get_insert_self,
          cellAfter]
      · have hne : key ≠ k := fun hh => hk hh.symm
        simp [applyOp, keyHistoryStep, AwaitStateMap.put,
          get_insert_ne m k key (WatchDiff.new v) hne, hk, hm]
    | remove k =>
      by_cases hk : k = key
      · subst hk
        simp [applyOp, keyHistoryStep, get_remove_self]
      · have hne : key ≠ k := fun hh => hk hh.symm
        simp [applyOp, keyHistoryStep, get_remove_ne m k key hne, hk, hm]
    | set_state k v =>
      by_cases hk : k = key
      · subst hk
        cases h with
        | none =>
          simp only [Option.map_none'] at hm
          simp [applyOp, AwaitStateMap.set_state, hm, keyHistoryStep]
        | some x =>
          simp only [Option.map_some'] at hm
          simp [applyOp, AwaitStateMap.set_state, hm, keyHistoryStep,
            get_insert_self, cellAfter_append]
      · have hne : key ≠ k := fun hh => hk hh.symm
        cases hmk : m.get k with
        | none =>
          cases h with
          | none => simp [applyOp, AwaitStateMap.set_state, hmk, keyHistoryStep, hm]
          | some x =>
            simp [applyOp, AwaitStateMap.set_state, hmk, keyHistoryStep, hk, hm]
        | some cell =>
          cases h with
          | none =>
            simp [applyOp, AwaitStateMap.set_state, hmk, keyHistoryStep,
              get_insert_ne m k key (cell.set v) hne, hm]
          | some x =>
            simp [applyOp, AwaitStateMap.set_state, hmk, keyHistoryStep, hk,
              get_insert_ne m k key (cell.set v) hne, hm]
    | get_state k =>
      simpa [applyOp, keyHistoryStep] using hm

/-- C6: a cell's `prev` is `None` exactly when the cell has never been mutated
by a successful `set_state` since the `put` that created it, along any history
of map operations (`put`, `remove`, `set_state`, `get_state`); the cell always
equals the fold of its recorded `set` calls over its creating value. -/
theorem prev_none_iff_never_set {T : Type} (ops : List (MapOp T)) (key : String)
    (cell : WatchDiff T) (init : T) (sets : List T)
    (h1 : (runOps ops).get key = some cell)
    (h2 : keyHistory key ops = some (init, sets)) :
    cell = cellAfter init sets ∧ (cell.prev = none ↔ sets = []) := by
  have hb := get_foldl_applyOp key ops AwaitStateMap.new none
    (by simp [AwaitStateMap.new, AwaitStateMap.get])
  have h2' : ops.foldl (keyHistoryStep key) none = some (init, sets) := h2
  have h1' : (ops.foldl applyOp AwaitStateMap.new).get key = some cell := h1
  rw [hb, h2', Option.map_some'] at h1'
  replace h1 := h1'
  have hc : cell = cellAfter init sets := (Option.some.injEq .. ▸ h1).symm
  subst hc
  exact ⟨rfl, cellAfter_prev_none init sets⟩

/-- Witness for C6: the history `put "x" 0; set_state "x" 1; get_state "x"`
yields the cell `(Some 0, 1)` with one recorded set. -/
theorem prev_none_iff_never_set_witness :
    ((runOps [MapOp.put "x" (0 : Nat), MapOp.set_state "x" 1,
        MapOp.get_state "x"]).get "x" = some { prev := some 0, current := 1 }) ∧
    (keyHistory "x" [MapOp.put "x" (0 : Nat), MapOp.set_state "x" 1,
        MapOp.get_state "x"] = some (0, [1])) ∧
    (({ prev := some 0, current := 1 } : WatchDiff Nat) = cellAfter 0 [1] ∧
      (({ prev := some 0, current := 1 } : WatchDiff Nat).prev = none ↔
        ([1] : List Nat) = [])) :=
  ⟨by decide, by decide,
    prev_none_iff_never_set [MapOp.put "x" (0 : Nat), MapOp.set_state "x" 1,
      MapOp.get_state "x"] "x" { prev := some 0, current := 1 } 0 [1]
      (by decide) (by decide)⟩

/-- C8 counterexample: in the event trace of `WatchDiff::set` on a concrete
cell, the write guard is not released before `notify_waiters` runs — the
notification happens while the exclusive lock is still held, refuting the
claim that waiters are woken only after the lock is released. -/
theorem set_releases_lock_before_notify_counterexample :
    ¬ WatchDiff.lockReleasedBeforeNotify
        ((WatchDiff.new (0 : Nat)).setEvents 1) := by
  decide

/-- C8 (amended): every `set` acquires the cell's exclusive lock, shifts
`current` into `prev`, installs the new value, then wakes all parked waiters
while still holding the lock, and releases the lock only afterwards (the
guard drops at end of scope, after `notify_waiters`). -/
theorem set_notifies_while_lock_held {T : Type} (c : WatchDiff T) (v : T) :
    ((c.setEvents v).findIdx WatchDiff.isAcquireEvent = 0) ∧
    ((c.setEvents v).findIdx WatchDiff.isWriteCurrentEvent
      < (c.setEvents v).findIdx WatchDiff.isNotifyEvent) ∧
    ((c.setEvents v).findIdx WatchDiff.isNotifyEvent
      < (c.setEvents v).findIdx WatchDiff.isReleaseEvent) ∧
    (¬ WatchDiff.lockReleasedBeforeNotify (c.setEvents v)) ∧
    (WatchDiff.SetEvent.writePrev (some c.current) ∈ c.setEvents v) ∧
    (c.set v = { prev := some c.current, current := v }) := by
  refine ⟨?_, ?_, ?_, ?_, ?_, rfl⟩ <;>
    simp [WatchDiff.setEvents, WatchDiff.lockReleasedBeforeNotify,
      List.findIdx, List.findIdx.go, WatchDiff.isAcquireEvent,
      WatchDiff.isWriteCurrentEvent, WatchDiff.isNotifyEvent,
      WatchDiff.isReleaseEvent]

/-- Witness for the amended C8 at a concrete cell: the fresh cell for `0`
receiving `set 1`. -/
theorem set_notifies_while_lock_held_witness :
    (((WatchDiff.new (0 : Nat)).setEvents 1).findIdx WatchDiff.isAcquireEvent
      = 0) ∧
    (((WatchDiff.new (0 : Nat)).setEvents 1).findIdx WatchDiff.isWriteCurrentEvent
      < ((WatchDiff.new (0 : Nat)).setEvents 1).findIdx WatchDiff.isNotifyEvent) ∧
    (((WatchDiff.new (0 : Nat)).setEvents 1).findIdx WatchDiff.isNotifyEvent
      < ((WatchDiff.new (0 : Nat)).setEvents 1).findIdx WatchDiff.isReleaseEvent) ∧
    (¬ WatchDiff.lockReleasedBeforeNotify ((WatchDiff.new (0 : Nat)).setEvents 1)) ∧
    (WatchDiff.SetEvent.writePrev (some (WatchDiff.new (0 : Nat)).current)
      ∈ (WatchDiff.new (0 : Nat)).setEvents 1) ∧
    ((WatchDiff.new (0 : Nat)).set 1
      = { prev := some (WatchDiff.new (0 : Nat)).current, current := 1 }) :=
  set_notifies_while_lock_held (WatchDiff.new 0) 1

/-- C2: `wait_until` first snapshots the cell's `(prev, current)` and
evaluates `p prev current` when `prev` is present and `p current current`
otherwise; whenever that first evaluation is true it returns `Ok(current)`
immediately, for every possible remainder of the trace (no blocking on any
subsequent set). -/
theorem wait_until_first_check_immediate {T : Type} [DecidableEq T]
    (m : AwaitStateMap T) (k : String) (p : T → T → Bool) (cell : WatchDiff T)
    (notifs : List (WatchDiff T)) (rest : List (WaitIteration T))
    (h : m.get k = some cell)
    (hp : (match cell.prev with
           | some pv => p pv cell.current
           | none => p cell.current cell.current) = true) :
    wait_until (⟨m, notifs⟩ :: rest) k p = some (Except.ok cell.current) := by
  cases hprev : cell.prev with
  | some pv =>
    have hp' : p pv cell.current = true := by
      rw [hprev] at hp
      simpa using hp
    simp [wait_until, h, WatchDiff.get_diff_cloned, hprev, hp']
  | none =>
    have hp' : p cell.current cell.current = true := by
      rw [hprev] at hp
      simpa using hp
    simp [wait_until, h, WatchDiff.get_diff_cloned, hprev, hp']

/-- Witness for C2: on a map where `"k"` holds a fresh cell for `0` (so
`prev` is absent) and the predicate asks `current = 0`, the wait returns
`Ok 0` with an empty remaining trace. -/
theorem wait_until_first_check_immediate_witness :
    (sampleMapK.get "k" = some (WatchDiff.new 0)) ∧
    ((match (WatchDiff.new (0 : Nat)).prev with
      | some pv => pv + 0 == 0
      | none => (WatchDiff.new (0 : Nat)).current + 0 == 0) = true) ∧
    (wait_until [⟨sampleMapK, []⟩] "k" (fun a _ => a + 0 == 0)
      = some (Except.ok (WatchDiff.new (0 : Nat)).current)) :=
  ⟨by decide, by decide,
    wait_until_first_check_immediate sampleMapK "k" (fun a _ => a + 0 == 0)
      (WatchDiff.new 0) [] [] (by decide) (by decide)⟩

/-- C4: operations on an absent key fail with `KeyNotFound` instead of
creating an entry: `get_state` and `set_state` fail leaving the map as it
was, and any `wait_until` loop iteration whose lookup finds the key absent
returns `KeyNotFound` (the presence check runs at the top of every
iteration) instead of blocking. -/
theorem absent_key_fails {T : Type} [DecidableEq T] (m : AwaitStateMap T)
    (k : String) (v : T) (p : T → T → Bool) (notifs : List (WatchDiff T))
    (rest : List (WaitIteration T)) (h : m.get k = none) :
    (m.get_state k = Except.error AwaitStateError.KeyNotFound) ∧
    (m.set_state k v = (m, Except.error AwaitStateError.KeyNotFound)) ∧
    (wait_until (⟨m, notifs⟩ :: rest) k p
      = some (Except.error AwaitStateError.KeyNotFound)) := by
  refine ⟨?_, ?_, ?_⟩ <;>
    simp [AwaitStateMap.get_state, AwaitStateMap.set_state, wait_until, h]

/-- Witness for C4 at the absent key `"missing"` of a one-entry map. -/
theorem absent_key_fails_witness :
    (sampleMapA.get "missing" = none) ∧
    ((sampleMapA.get_state "missing"
        = Except.error AwaitStateError.KeyNotFound) ∧
      (sampleMapA.set_state "missing" 1
        = (sampleMapA, Except.error AwaitStateError.KeyNotFound)) ∧
      (wait_until [⟨sampleMapA, []⟩] "missing" (fun _ _ => true)
        = some (Except.error AwaitStateError.KeyNotFound))) :=
  ⟨by decide,
    absent_key_fails sampleMapA "missing" 1 (fun _ _ => true) [] [] (by decide)⟩

/-- C7: `WatchDiff::changed` only returns pairs `(prev, curr)` for which the
snapshot had `prev` present, equal to the returned `prev`, and
`prev ≠ curr`; a notification whose snapshot has `prev` absent, or `prev`
equal to `current`, is skipped and the loop keeps waiting. -/
theorem changed_returns_real_transition {T : Type} [DecidableEq T] :
    (∀ (states : List (WatchDiff T)) (a b : T),
      WatchDiff.changed states = some (a, b) →
      a ≠ b ∧ ∃ c ∈ states, c.prev = some a ∧ c.current = b) ∧
    (∀ (c : WatchDiff T) (states : List (WatchDiff T)),
      (c.prev = none ∨ c.prev = some c.current) →
      WatchDiff.changed (c :: states) = WatchDiff.changed states) := by
  constructor
  · intro states
    induction states with
    | nil => intro a b hab; simp [WatchDiff.changed] at hab
    | cons c rest ih =>
      intro a b hab
      rw [WatchDiff.changed] at hab
      cases hprev : c.prev with
      | none =>
        simp only [WatchDiff.get_diff_cloned, hprev] at hab
        obtain ⟨hne, d, hd, hdp, hdc⟩ := ih a b hab
        exact ⟨hne, d, List.mem_cons_of_mem c hd, hdp, hdc⟩
      | some pv =>
        simp only [WatchDiff.get_diff_cloned, hprev] at hab
        by_cases hcp : c.current ≠ pv
        · rw [if_pos hcp] at hab
          obtain ⟨ha, hb⟩ := Prod.mk.injEq .. ▸ Option.some.injEq .. ▸ hab
          refine ⟨?_, c, List.mem_cons_self c rest, ?_, hb⟩
          · rw [← ha, ← hb]
            exact fun hh => hcp hh.symm
          · rw [hprev]
            exact congrArg some ha
        · rw [if_neg hcp] at hab
          obtain ⟨hne, d, hd, hdp, hdc⟩ := ih a b hab
          exact ⟨hne, d, List.mem_cons_of_mem c hd, hdp, hdc⟩
  · intro c states hskip
    cases hskip with
    | inl hnone => rw [WatchDiff.changed]; simp [WatchDiff.get_diff_cloned, hnone]
    | inr hself => rw [WatchDiff.changed]; simp [WatchDiff.get_diff_cloned, hself]

/-- Witness for C7: a trace whose single snapshot records the transition
`1 → 2`, and a skipped snapshot with absent `prev`. -/
theorem changed_returns_real_transition_witness :
    ((1 : Nat) ≠ 2 ∧ ∃ c ∈ [({ prev := some 1, current := 2 } : WatchDiff Nat)],
      c.prev = some 1 ∧ c.current = 2) ∧
    (WatchDiff.changed ([{ prev := none, current := 0 }] : List (WatchDiff Nat))
      = WatchDiff.changed ([] : List (WatchDiff Nat))) :=
  ⟨changed_returns_real_transition.1 [{ prev := some 1, current := 2 }] 1 2
      (by decide),
    changed_returns_real_transition.2 { prev := none, current := 0 } []
      (Or.inl rfl)⟩

/-- C5: `wait_until_timeout` returns `Err(TimeoutExpired)` exactly when the
timer wins the race, propagates a completed `wait_until` result unchanged
(both `Ok` and `Err(KeyNotFound)`), and no other operation ever produces
`TimeoutExpired`. -/
theorem wait_until_timeout_propagates (T : Type) [DecidableEq T] :
    (wait_until_timeout
        (TimeoutOutcome.elapsed : TimeoutOutcome (Except AwaitStateError T))
      = Except.error AwaitStateError.TimeoutExpired) ∧
    (∀ r : Except AwaitStateError T,
      wait_until_timeout (TimeoutOutcome.completed r) = r) ∧
    (∀ (m : AwaitStateMap T) (k : String),
      m.get_state k ≠ Except.error AwaitStateError.TimeoutExpired) ∧
    (∀ (m : AwaitStateMap T) (k : String) (v : T),
      (m.set_state k v).2 ≠ Except.error AwaitStateError.TimeoutExpired) ∧
    (∀ (trace : List (WaitIteration T)) (k : String) (p : T → T → Bool),
      wait_until trace k p
        ≠ some (Except.error AwaitStateError.TimeoutExpired)) := by
  refine ⟨rfl, fun r => rfl, ?_, ?_, ?_⟩
  · intro m k
    cases hm : m.get k <;> simp [AwaitStateMap.get_state, hm]
  · intro m k v
    cases hm : m.get k <;> simp [AwaitStateMap.set_state, hm]
  · intro trace k p
    induction trace with
    | nil => simp [wait_until]
    | cons it rest ih =>
      rw [wait_until]
      cases hm : it.map.get k with
      | none => simp
      | some entry =>
        cases hprev : entry.prev with
        | some pv =>
          by_cases hp1 : p pv entry.current
          · simp [WatchDiff.get_diff_cloned, hprev, hp1]
          · simp only [WatchDiff.get_diff_cloned, hprev, hp1]
            cases hch : WatchDiff.changed it.notifs with
            | none => simp
            | some pr =>
              by_cases hp2 : p pr.1 pr.2
              · simp [hp2]
              · simp [hp2, ih]
        | none =>
          by_cases hp1 : p entry.current entry.current
          · simp [WatchDiff.get_diff_cloned, hprev, hp1]
          · simp only [WatchDiff.get_diff_cloned, hprev, hp1]
            cases hch : WatchDiff.changed it.notifs with
            | none => simp
            | some pr =>
              by_cases hp2 : p pr.1 pr.2
              · simp [hp2]
              · simp [hp2, ih]

/-- Witness for C5: the completed branch propagates `Ok 3` unchanged, and the
elapsed branch yields `TimeoutExpired`. -/
theorem wait_until_timeout_propagates_witness :
    (wait_until_timeout (TimeoutOutcome.completed (Except.ok (3 : Nat)))
      = Except.ok 3) ∧
    (wait_until_timeout
        (TimeoutOutcome.elapsed : TimeoutOutcome (Except AwaitStateError Nat))
      = Except.error AwaitStateError.TimeoutExpired) :=
  ⟨(wait_until_timeout_propagates Nat).2.1 (Except.ok 3),
    (wait_until_timeout_propagates Nat).1⟩

end AwaitState
